import Mathlib

/-!
Verification development for the `surreal` environment-adaptation layer
(`src/surreal/env/wrapper.py`, `src/surreal/main/rollout.py`).

The Python code is shallowly embedded: numpy arrays become shape-carrying
structures with total indexing functions, uint8 arithmetic is `Nat`
arithmetic with explicit `% 256`, Python `assert`/`raise` failures become
`Option`/`Except` failure values, and the stateful environment objects
become explicit state-passing functions.
-/

/-- A 3-dimensional numpy array of unsigned 8-bit integers: shape
`(d0, d1, d2)` together with a total indexing function (only in-bounds
indices are ever relevant). -/
structure Arr3 where
  d0 : Nat
  d1 : Nat
  d2 : Nat
  data : Nat → Nat → Nat → Nat

/-- The `shape` attribute of a 3-D array, as a list `[d0, d1, d2]`. -/
def Arr3.shape (a : Arr3) : List Nat := [a.d0, a.d1, a.d2]

/-- `v.transpose((2, 1, 0))`: new axis 0 is old axis 2, axis 1 stays,
new axis 2 is old axis 0. -/
def Arr3.transpose210 (a : Arr3) : Arr3 :=
  ⟨a.d2, a.d1, a.d0, fun i j k => a.data k j i⟩

/-- `np.concatenate` of two 3-D arrays along axis 0 (shape agreement on the
trailing axes is checked by the caller). -/
def concat2 (a b : Arr3) : Arr3 :=
  ⟨a.d0 + b.d0, a.d1, a.d2,
   fun c i j => if c < a.d0 then a.data c i j else b.data (c - a.d0) i j⟩

/-- Accumulating loop of `np.concatenate` along axis 0: each further array
must agree with the accumulator on the non-concatenation axes, otherwise
numpy raises. -/
def concatAxis0Go (acc : Arr3) : List Arr3 → Option Arr3
  | [] => some acc
  | b :: rest =>
    if b.d1 = acc.d1 ∧ b.d2 = acc.d2 then concatAxis0Go (concat2 acc b) rest
    else none

/-- `np.concatenate(l, axis=0)` for 3-D arrays; fails on an empty list or on
mismatched trailing axes. -/
def concatAxis0 : List Arr3 → Option Arr3
  | [] => none
  | a :: rest => concatAxis0Go a rest

/-- A value of a raw observation mapping: a rank-1 numpy array (values as a
list), a rank-3 numpy array, or a rank-0 scalar (which `flatten_obs`
rejects as "Unrecognized data format"). -/
inductive NpArray where
  | vec (data : List Nat)
  | cube (a : Arr3)
  | scalar (v : Nat)

/-- A raw environment observation: an ordered mapping from names to arrays
(`collections.OrderedDict` iteration order is the list order). -/
def RawObs : Type := List (String × NpArray)

/-- An observation after the flattening stage: an optional visual 3-D array
and an optional flat 1-D array. -/
def Obs : Type := Option Arr3 × Option (List Nat)

/-- The accumulating loop of `flatten_obs`: walks the mapping, collecting
rank-1 arrays in order and at most one rank-3 array, which must have shape
`(84, 84, 3)` and is transposed to `(3, 84, 84)`.  `none` models a Python
`assert` failure or the `Unrecognized data format` exception. -/
def flattenLoop : List (String × NpArray) → List (List Nat) → Option Arr3 →
    Option (Option Arr3 × List (List Nat))
  | [], fl, vis => some (vis, fl)
  | (_, NpArray.vec d) :: rest, fl, vis => flattenLoop rest (fl ++ [d]) vis
  | (_, NpArray.cube a) :: rest, fl, vis =>
    if a.d0 = 84 ∧ a.d1 = 84 ∧ a.d2 = 3 then
      if (a.transpose210).d0 = 3 ∧ (a.transpose210).d1 = 84 ∧ (a.transpose210).d2 = 84 then
        match vis with
        | some _ => none
        | none => flattenLoop rest fl (some a.transpose210)
      else none
    else none
  | (_, NpArray.scalar _) :: _, _, _ => none

/-- `flatten_obs` (wrapper.py:266-288): separates a raw observation mapping
into a `(visual, flat)` pair; an empty list of flat pieces collapses to
`none`, otherwise the pieces are concatenated in mapping order. -/
def flatten_obs (obs : List (String × NpArray)) : Option Obs :=
  match flattenLoop obs [] none with
  | none => none
  | some (vis, fl) => some (vis, if fl.isEmpty then none else some fl.flatten)

/-- `np.mean(a, 0, 'uint8')` at position `(i, j)`: the sum is accumulated in
uint8 (wrapping modulo 256 at every addition) and the final division by the
axis length is truncated when cast back to uint8. -/
def npMeanAxis0Uint8 (a : Arr3) (i j : Nat) : Nat :=
  ((List.range a.d0).foldl (fun s k => (s + a.data k i j) % 256) 0) / a.d0

/-- `GrayscaleWrapper._grayscale` (wrapper.py:334-341): passes a missing
visual component through, asserts shape `(3, 84, 84)`, averages over the
channel axis with `np.mean(·, 0, 'uint8')` and reshapes to `(1, H, W)`.
The flat component is untouched. -/
def grayscaleFn (obs : Obs) : Option Obs :=
  match obs with
  | (none, _) => some obs
  | (some v, fl) =>
    if v.d0 = 3 ∧ v.d1 = 84 ∧ v.d2 = 84 then
      some (some ⟨1, v.d1, v.d2, fun _ i j => npMeanAxis0Uint8 v i j⟩, fl)
    else none

/-- `dm_control.rl.environment.StepType`: `LAST` is the terminal value. -/
inductive StepType where
  | FIRST
  | MID
  | LAST
deriving DecidableEq

/-- A dm_control `TimeStep` as consumed by `DMControlAdapter`: a step type,
a possibly undefined (`None`) scalar reward, and an observation. -/
structure TimeStep (O : Type) where
  step_type : StepType
  reward : Option Int
  observation : O

/-- The tuple returned by `DMControlAdapter._step`, together with the lines
printed while producing it. -/
structure DMCStepOut (O : Type) where
  observation : O
  reward : Int
  done : Bool
  info : List (String × String)
  logs : List String

/-- `DMControlAdapter._step` (wrapper.py:218-229): substitutes 0 for a
`None` reward (printing a diagnostic), passes the native observation
through unchanged (the transpose is commented out in the source), reports
`done` iff the step type is `LAST`, and returns an empty info mapping. -/
def dmcStepFn {O : Type} (ts : TimeStep O) : DMCStepOut O :=
  match ts.reward with
  | none =>
    { observation := ts.observation, reward := 0,
      done := decide (ts.step_type = StepType.LAST), info := [],
      logs := ["None reward"] }
  | some r =>
    { observation := ts.observation, reward := r,
      done := decide (ts.step_type = StepType.LAST), info := [],
      logs := [] }

/-- `DMControlAdapter._reset` (wrapper.py:231-233): returns the native
observation unchanged together with an empty info mapping. -/
def dmcResetFn {O : Type} (ts : TimeStep O) : O × List (String × String) :=
  (ts.observation, [])

/-- A `dm_control.rl.specs.ArraySpec` as used in the observation specs. -/
structure ArraySpec where
  shape : List Nat
  dtype : String
  name : String
deriving DecidableEq

/-- `DMControlAdapter.observation_spec` (wrapper.py:242-243): a fixed
ordered mapping with one entry, a named pixel channel of shape
`(3, 84, 84)` and dtype uint8. -/
def dmcObservationSpec : List (String × ArraySpec) :=
  [("pixels", ⟨[3, 84, 84], "uint8", "pixels"⟩)]

/-- An environment as seen by `Wrapper._ensure_no_double_wrap`: either a
base (non-`Wrapper`) environment, at which the walk stops, or a wrapper of
some class (`class_name` is the subclass name) around an inner
environment. -/
inductive EnvChain where
  | base
  | wrap (kind : String) (inner : EnvChain)

/-- `Wrapper._ensure_no_double_wrap` (wrapper.py:40-51): walk `self.env`
towards the root; `false` (a `RuntimeError` in Python) as soon as some
inner wrapper has the same class name as the wrapper under construction. -/
def ensure_no_double_wrap (kind : String) : EnvChain → Bool
  | EnvChain.base => true
  | EnvChain.wrap k inner =>
    if k = kind then false else ensure_no_double_wrap kind inner

/-- `Wrapper.__init__` (wrapper.py:26-32) restricted to the double-wrap
check: constructing a wrapper of class `kind` around `env` succeeds iff
the check passes. -/
def wrapEnv (kind : String) (env : EnvChain) : Option EnvChain :=
  if ensure_no_double_wrap kind env then some (EnvChain.wrap kind env) else none

/-- The class names of all wrappers in a chain, outermost first. -/
def chainKinds : EnvChain → List String
  | EnvChain.base => []
  | EnvChain.wrap k inner => k :: chainKinds inner

/-- A stateful environment under the surreal stepping contract, embedded as
explicit state passing: `reset` yields a new state and an observation,
`step` yields a new state, an observation, a reward and a done flag. -/
structure Env (σ O A : Type) where
  reset : σ → σ × O
  step : σ → A → σ × O × Int × Bool

/-- `MaxStepWrapper._reset` (wrapper.py:138-140): zero the step counter and
reset the inner environment.  Wrapper state = inner state × counter. -/
def msReset {σ O A : Type} (E : Env σ O A) (s : σ × Nat) : (σ × Nat) × O :=
  let r := E.reset s.1
  ((r.1, 0), r.2)

/-- `MaxStepWrapper._step` (wrapper.py:142-147): increment the counter,
step the inner environment, and force `done = true` once the counter has
reached `max_steps`. -/
def msStep {σ O A : Type} (m : Nat) (E : Env σ O A) (s : σ × Nat) (a : A) :
    (σ × Nat) × O × Int × Bool :=
  let c := s.2 + 1
  let r := E.step s.1 a
  ((r.1, c), r.2.1, r.2.2.1, if m ≤ c then true else r.2.2.2)

/-- The sequence of `done` flags returned by a `MaxStepWrapper` over a list
of actions, starting from wrapper state `s`. -/
def msRunDones {σ O A : Type} (m : Nat) (E : Env σ O A) :
    σ × Nat → List A → List Bool
  | _, [] => []
  | s, a :: rest =>
    let r := msStep m E s a
    r.2.2.2 :: msRunDones m E r.1 rest

/-- The sequence of `done` flags the inner environment itself returns over
the same list of actions. -/
def innerRunDones {σ O A : Type} (E : Env σ O A) : σ → List A → List Bool
  | _, [] => []
  | s, a :: rest =>
    let r := E.step s a
    r.2.2.2 :: innerRunDones E r.1 rest

/-- `collections.deque(maxlen := n).append`: append on the right, and once
the length exceeds the bound drop the oldest elements on the left. -/
def dequeAppend {α : Type} (n : Nat) (q : List α) (x : α) : List α :=
  let q2 := q ++ [x]
  if n < q2.length then q2.drop (q2.length - n) else q2

/-- The reset loop of `FrameStackWrapper._reset` (wrapper.py:409-410):
append the initial observation `n` times to the history deque. -/
def fsFill {α : Type} (n : Nat) (q : List α) (x : α) : List α :=
  (List.range n).foldl (fun q2 _ => dequeAppend n q2 x) q

/-- Sequencing of a list of optional values: `none` as soon as one entry is
`none` (models handing a Python `None` to `np.concatenate`). -/
def seqOptions {α : Type} : List (Option α) → Option (List α)
  | [] => some []
  | none :: _ => none
  | some x :: rest => (seqOptions rest).map (fun l => x :: l)

/-- `FrameStackWrapper._stacked_observation` (wrapper.py:379-399): split
the history into visual and flat parts; if the first visual is present,
assert it has shape `(1, 84, 84)` and concatenate all visuals along the
channel axis; the flat output is the most recent frame's flat part (or
`none` when the first frame has no flat part).  `none` models an assertion
failure, an empty-history index error, or a concatenation error. -/
def stackedObservation (hist : List Obs) : Option Obs :=
  match hist with
  | [] => none
  | (v0, f0) :: rest =>
    let flat : Option (List Nat) :=
      match f0 with
      | none => none
      | some _ => (((v0, f0) :: rest).map Prod.snd).getLastD none
    match v0 with
    | none => some (none, flat)
    | some a0 =>
      if a0.d0 = 1 ∧ a0.d1 = 84 ∧ a0.d2 = 84 then
        match seqOptions (((v0, f0) :: rest).map Prod.fst) with
        | none => none
        | some arrs =>
          match concatAxis0 arrs with
          | none => none
          | some v => some (some v, flat)
      else none

/-- `FrameStackWrapper._reset` (wrapper.py:407-411): reset the inner
environment, append the initial observation `n` times to the history, and
return the stacked observation.  Wrapper state = inner state × history. -/
def fsReset {σ A : Type} (n : Nat) (E : Env σ Obs A) (s : σ × List Obs) :
    Option ((σ × List Obs) × Obs) :=
  let r := E.reset s.1
  let hist := fsFill n s.2 r.2
  match stackedObservation hist with
  | none => none
  | some o => some ((r.1, hist), o)

/-- `FrameStackWrapper._step` (wrapper.py:401-405): step the inner
environment, append the new observation to the history, and return the
stacked observation with the inner reward and done flag. -/
def fsStep {σ A : Type} (n : Nat) (E : Env σ Obs A) (s : σ × List Obs)
    (a : A) : Option ((σ × List Obs) × Obs × Int × Bool) :=
  let r := E.step s.1 a
  let hist := dequeAppend n s.2 r.2.1
  match stackedObservation hist with
  | none => none
  | some o => some ((r.1, hist), o, r.2.2.1, r.2.2.2)

/-- A nonempty all-digit character list parsed as a natural number;
`none` otherwise. -/
def parseDigits : List Char → Option Nat
  | [] => none
  | l => l.foldl (fun acc c =>
      match acc with
      | none => none
      | some n => if c.isDigit then some (n * 10 + (c.toNat - 48)) else none)
      (some 0)

/-- Python `int(s)` restricted to an optional sign followed by digits;
`none` models the `ValueError` that `int` raises on a non-numeric string.
File names are embedded as their character lists. -/
def parsePyInt : List Char → Option Int
  | '-' :: rest => (parseDigits rest).map (fun n => -(n : Int))
  | '+' :: rest => (parseDigits rest).map (fun n => (n : Int))
  | s => (parseDigits s).map (fun n => (n : Int))

/-- Python `str.split('.')`: the dot-separated segments, one more segment
than there are dots (so the empty string yields one empty segment). -/
def splitDots (l : List Char) : List (List Char) :=
  l.foldr (fun c acc =>
    match acc with
    | [] => [[c]]
    | seg :: rest =>
      if c = '.' then [] :: seg :: rest else (c :: seg) :: rest) [[]]

/-- `int(path.basename(ckpt).split('.')[1])` (rollout.py:29): the second
dot-delimited segment of the file name, parsed as an integer. -/
def ckptIter (f : List Char) : Option Int :=
  match (splitDots f).get? 1 with
  | none => none
  | some seg => parsePyInt seg

/-- How `restore_model` can fail: `int()` on a malformed segment raises a
`ValueError`, and the no-checkpoint branch raises an `IndexError` (the
message `'No checkpoint available in folder {}'.format()` has a placeholder
but no argument, so `format` fails before the intended `ValueError` is
constructed). -/
inductive RestoreErr where
  | intParseError
  | formatIndexError
deriving DecidableEq

/-- Whether a file name is matched by `glob(path.join(folder, "*.ckpt"))`:
it ends in `.ckpt` and is not a hidden file (glob's `*` does not match a
leading dot). -/
def globCkpt (f : List Char) : Bool :=
  decide (f.reverse.take 5 = (".ckpt".data).reverse) &&
    !(decide (f.head? = some '.'))

/-- The selection loop of `restore_model` (rollout.py:24-32): track the
maximal iteration number (initially `-1`) and the file that achieved it. -/
def restoreModelLoop : List (List Char) → Int → Option (List Char) →
    Except RestoreErr (Int × Option (List Char))
  | [], mi, mc => Except.ok (mi, mc)
  | f :: rest, mi, mc =>
    if globCkpt f then
      match ckptIter f with
      | none => Except.error RestoreErr.intParseError
      | some it =>
        if mi < it then restoreModelLoop rest it (some f)
        else restoreModelLoop rest mi mc
    else restoreModelLoop rest mi mc

/-- `restore_model` (rollout.py:19-38) up to the checkpoint-file choice:
the folder is embedded as the list of the file names it contains (in glob
order, each name as its character list); returns the chosen file name, or
the error the function raises. -/
def restore_model (files : List (List Char)) : Except RestoreErr (List Char) :=
  match restoreModelLoop files (-1) none with
  | Except.error e => Except.error e
  | Except.ok (_, none) => Except.error RestoreErr.formatIndexError
  | Except.ok (_, some f) => Except.ok f

/-- Whether an `NpArray` is a rank-0 scalar. -/
def isScalar : NpArray → Bool
  | NpArray.scalar _ => true
  | _ => false

/-- The rank-1 arrays of a raw observation mapping, in mapping order. -/
def vecsOf (m : List (String × NpArray)) : List (List Nat) :=
  m.filterMap (fun e =>
    match e.2 with
    | NpArray.vec d => some d
    | _ => none)

/-- The rank-3 arrays of a raw observation mapping, in mapping order. -/
def cubesOf (m : List (String × NpArray)) : List Arr3 :=
  m.filterMap (fun e =>
    match e.2 with
    | NpArray.cube a => some a
    | _ => none)

/-- An environment with trivial state that never terminates on its own:
used to exercise the wrappers on concrete traces. -/
def constEnv : Env Unit Unit Unit :=
  { reset := fun _ => ((), ()), step := fun _ _ => ((), (), 0, false) }

theorem ensure_no_double_wrap_eq_false (kind : String) (env : EnvChain) :
    ensure_no_double_wrap kind env = false ↔ kind ∈ chainKinds env := by
  induction env with
  | base => simp [ensure_no_double_wrap, chainKinds]
  | wrap k inner ih =>
    by_cases hk : k = kind
    · simp [ensure_no_double_wrap, chainKinds, hk]
    · simp [ensure_no_double_wrap, chainKinds, hk, ih, Ne.symm hk]

/-- Claim C4: constructing a wrapper fails exactly when a wrapper of the same
class name already appears anywhere in the inner chain; in particular two
same-kind wrappers back-to-back always fail. -/
theorem C4_no_double_wrap :
    (∀ (kind : String) (env : EnvChain),
      wrapEnv kind env = none ↔ kind ∈ chainKinds env)
    ∧ (∀ (kind : String) (e : EnvChain),
        wrapEnv kind (EnvChain.wrap kind e) = none) := by
  have hmain : ∀ (kind : String) (env : EnvChain),
      wrapEnv kind env = none ↔ kind ∈ chainKinds env := by
    intro kind env
    cases h : ensure_no_double_wrap kind env
    · simp only [wrapEnv, h, Bool.false_eq_true, if_false]
      simpa [h] using (ensure_no_double_wrap_eq_false kind env).mp h
    · simp only [wrapEnv, h, if_true]
      constructor
      · intro hc
        exact absurd hc (by simp)
      · intro hm
        rw [← ensure_no_double_wrap_eq_false kind env] at hm
        rw [h] at hm
        exact absurd hm (by simp)
  refine ⟨hmain, fun kind e => ?_⟩
  rw [hmain]
  simp [chainKinds]

/-- Closed instance of C4: wrapping a `MaxStepWrapper` directly around a
`MaxStepWrapper` fails, while wrapping a different kind succeeds. -/
theorem C4_no_double_wrap_witness :
    wrapEnv "MaxStepWrapper" (EnvChain.wrap "MaxStepWrapper" EnvChain.base) = none
    ∧ wrapEnv "GrayscaleWrapper" (EnvChain.wrap "MaxStepWrapper" EnvChain.base)
        = some (EnvChain.wrap "GrayscaleWrapper"
            (EnvChain.wrap "MaxStepWrapper" EnvChain.base)) := by
  constructor
  · exact C4_no_double_wrap.2 "MaxStepWrapper" EnvChain.base
  · rfl

/-- Claim C7: the Variant B adapter substitutes 0 for an undefined reward and
prints a diagnostic (execution continues and still yields a step tuple),
reports `done` exactly when the native step type is `LAST`, and always
returns an empty info mapping. -/
theorem C7_dmc_step_contract :
    ∀ (O : Type) (ts : TimeStep O),
      (ts.reward = none →
        (dmcStepFn ts).reward = 0 ∧ (dmcStepFn ts).logs = ["None reward"])
      ∧ (∀ r : Int, ts.reward = some r →
          (dmcStepFn ts).reward = r ∧ (dmcStepFn ts).logs = [])
      ∧ ((dmcStepFn ts).done = true ↔ ts.step_type = StepType.LAST)
      ∧ (dmcStepFn ts).info = [] := by
  intro O ts
  refine ⟨?_, ?_, ?_, ?_⟩
  · intro h
    simp [dmcStepFn, h]
  · intro r h
    simp [dmcStepFn, h]
  · cases h : ts.reward <;> simp [dmcStepFn, h]
  · cases h : ts.reward <;> simp [dmcStepFn, h]

/-- Closed instance of C7 at a `None`-reward terminal time-step. -/
theorem C7_dmc_step_contract_witness :
    (dmcStepFn (⟨StepType.LAST, none, 42⟩ : TimeStep Nat)).reward = 0
    ∧ (dmcStepFn (⟨StepType.LAST, none, 42⟩ : TimeStep Nat)).logs = ["None reward"]
    ∧ (dmcStepFn (⟨StepType.LAST, none, 42⟩ : TimeStep Nat)).done = true
    ∧ (dmcStepFn (⟨StepType.LAST, none, 42⟩ : TimeStep Nat)).info = [] := by
  have h := C7_dmc_step_contract Nat ⟨StepType.LAST, none, 42⟩
  exact ⟨(h.1 rfl).1, (h.1 rfl).2, (h.2.2.1).mpr rfl, h.2.2.2⟩

/-- Claim C8: on an empty folder (and on a folder with no `*.ckpt` file) the
no-checkpoint branch fails with an `IndexError` coming from
`'...{}'.format()`, not with the intended `ValueError`; on well-formed
checkpoint names the maximal iteration number wins. -/
theorem C8_restore_model_behaviour :
    restore_model [] = Except.error RestoreErr.formatIndexError
    ∧ restore_model ["readme.txt".data] = Except.error RestoreErr.formatIndexError
    ∧ restore_model ["net.3.ckpt".data, "net.10.ckpt".data, "net.7.ckpt".data]
        = Except.ok "net.10.ckpt".data := by
  refine ⟨rfl, ?_, ?_⟩ <;> rfl

theorem innerRunDones_length {σ O A : Type} (E : Env σ O A) :
    ∀ (acts : List A) (s : σ), (innerRunDones E s acts).length = acts.length := by
  intro acts
  induction acts with
  | nil => intro s; rfl
  | cons a rest ih => intro s; simp [innerRunDones, ih]

theorem msRunDones_getElem? {σ O A : Type} (m : Nat) (E : Env σ O A) :
    ∀ (acts : List A) (s : σ) (c k : Nat),
      (msRunDones m E (s, c) acts)[k]? =
        ((innerRunDones E s acts)[k]?).map
          (fun d => if m ≤ c + k + 1 then true else d) := by
  intro acts
  induction acts with
  | nil => intro s c k; simp [msRunDones, innerRunDones]
  | cons a rest ih =>
    intro s c k
    cases k with
    | zero => simp [msRunDones, innerRunDones, msStep]
    | succ k2 =>
      have harith : c + 1 + k2 + 1 = c + (k2 + 1) + 1 := by omega
      simp only [msRunDones, innerRunDones, msStep, List.getElem?_cons_succ]
      rw [ih (E.step s a).1 (c + 1) k2]
      simp only [harith]

/-- Claim C3: with limit 3, the first two steps after a reset report the inner
environment's own done flag, and the third step reports `done = true` for
every inner environment, in particular one that reports `done = false`
there. -/
theorem C3_max_step_limit_3 :
    ∀ (σ O A : Type) (E : Env σ O A) (s : σ × Nat) (acts : List A),
      3 ≤ acts.length →
      (msRunDones 3 E (msReset E s).1 acts)[2]? = some true
      ∧ (msRunDones 3 E (msReset E s).1 acts)[0]?
          = (innerRunDones E (msReset E s).1.1 acts)[0]?
      ∧ (msRunDones 3 E (msReset E s).1 acts)[1]?
          = (innerRunDones E (msReset E s).1.1 acts)[1]? := by
  intro σ O A E s acts hlen
  have hst : (msReset E s).1 = ((E.reset s.1).1, 0) := rfl
  rw [hst]
  have h0 := msRunDones_getElem? 3 E acts (E.reset s.1).1 0 0
  have h1 := msRunDones_getElem? 3 E acts (E.reset s.1).1 0 1
  have h2 := msRunDones_getElem? 3 E acts (E.reset s.1).1 0 2
  refine ⟨?_, ?_, ?_⟩
  · rw [h2]
    have hlt : 2 < (innerRunDones E (E.reset s.1).1 acts).length := by
      rw [innerRunDones_length]; omega
    rw [List.getElem?_eq_getElem hlt]
    simp
  · rw [h0]
    simp
  · rw [h1]
    simp

/-- Closed instance of C3: three steps of a never-terminating inner
environment under a limit-3 max-step wrapper. -/
theorem C3_max_step_limit_3_witness :
    (msRunDones 3 constEnv (msReset constEnv ((), 5)).1 [(), (), ()])[2]?
        = some true
    ∧ (msRunDones 3 constEnv (msReset constEnv ((), 5)).1 [(), (), ()])[0]?
        = (innerRunDones constEnv (msReset constEnv ((), 5)).1.1 [(), (), ()])[0]? := by
  have h := C3_max_step_limit_3 Unit Unit Unit constEnv ((), 5) [(), (), ()]
    (by decide)
  exact ⟨h.1, h.2.1⟩

/-- Claim C9: the limit applies per episode: a reset zeroes the internal step
counter, the k-th step after a reset (1-indexed as `k + 1`) is forced to
`done = true` exactly when the counter has reached `max_steps`, and below
the limit the wrapper reports the inner environment's own flag. -/
theorem C9_max_step_per_episode :
    ∀ (σ O A : Type) (E : Env σ O A) (s : σ × Nat) (m : Nat) (acts : List A),
      (msReset E s).1.2 = 0
      ∧ (∀ k, k < acts.length → m ≤ k + 1 →
          (msRunDones m E (msReset E s).1 acts)[k]? = some true)
      ∧ (∀ k, k + 1 < m →
          (msRunDones m E (msReset E s).1 acts)[k]?
            = (innerRunDones E (msReset E s).1.1 acts)[k]?) := by
  intro σ O A E s m acts
  have hst : (msReset E s).1 = ((E.reset s.1).1, 0) := rfl
  refine ⟨rfl, ?_, ?_⟩
  · intro k hk hm
    rw [hst, msRunDones_getElem? m E acts (E.reset s.1).1 0 k]
    have hlt : k < (innerRunDones E (E.reset s.1).1 acts).length := by
      rw [innerRunDones_length]; omega
    rw [List.getElem?_eq_getElem hlt]
    simp only [Option.map_some']
    rw [if_pos (by omega)]
  · intro k hk
    rw [hst, msRunDones_getElem? m E acts (E.reset s.1).1 0 k]
    have hif : ∀ d : Bool, (if m ≤ 0 + k + 1 then true else d) = d := by
      intro d
      rw [if_neg (by omega)]
    simp only [hif]
    cases (innerRunDones E (E.reset s.1).1 acts)[k]? <;> simp

/-- Closed instance of C9: with limit 2, the first step after reset keeps
the inner flag and the second is forced. -/
theorem C9_max_step_per_episode_witness :
    (msReset constEnv ((), 7)).1.2 = 0
    ∧ (msRunDones 2 constEnv (msReset constEnv ((), 7)).1 [(), ()])[1]? = some true
    ∧ (msRunDones 2 constEnv (msReset constEnv ((), 7)).1 [(), ()])[0]?
        = (innerRunDones constEnv (msReset constEnv ((), 7)).1.1 [(), ()])[0]? := by
  have h := C9_max_step_per_episode Unit Unit Unit constEnv ((), 7) 2 [(), ()]
  exact ⟨h.1, h.2.1 1 (by decide) (by decide), h.2.2 0 (by decide)⟩

theorem npMeanAxis0Uint8_three (v : Arr3) (h : v.d0 = 3) (i j : Nat) :
    npMeanAxis0Uint8 v i j =
      ((v.data 0 i j + v.data 1 i j + v.data 2 i j) % 256) / 3 := by
  have hr : List.range v.d0 = [0, 1, 2] := by rw [h]; rfl
  unfold npMeanAxis0Uint8
  rw [hr, h]
  simp only [List.foldl_cons, List.foldl_nil]
  omega

/-- Claim C2 (amended): the grayscale stage keeps the flat component and returns
a `(1, 84, 84)` visual whose pixels are the uint8-accumulated channel mean
`((c0 + c1 + c2) mod 256) / 3`; this equals the true integer channel mean
exactly when the channel sum stays below 256. -/
theorem C2_grayscale_uint8_mean :
    ∀ (v : Arr3) (fl : Option (List Nat)),
      v.d0 = 3 → v.d1 = 84 → v.d2 = 84 →
      ∃ g : Arr3,
        grayscaleFn (some v, fl) = some (some g, fl)
        ∧ g.d0 = 1 ∧ g.d1 = 84 ∧ g.d2 = 84
        ∧ (∀ i j, g.data 0 i j =
            ((v.data 0 i j + v.data 1 i j + v.data 2 i j) % 256) / 3)
        ∧ (∀ i j, v.data 0 i j + v.data 1 i j + v.data 2 i j < 256 →
            g.data 0 i j = (v.data 0 i j + v.data 1 i j + v.data 2 i j) / 3) := by
  intro v fl h0 h1 h2
  refine ⟨⟨1, v.d1, v.d2, fun _ i j => npMeanAxis0Uint8 v i j⟩, ?_, rfl, h1, h2, ?_, ?_⟩
  · simp only [grayscaleFn]
    rw [if_pos ⟨h0, h1, h2⟩]
  · intro i j
    exact npMeanAxis0Uint8_three v h0 i j
  · intro i j hlt
    show npMeanAxis0Uint8 v i j = _
    rw [npMeanAxis0Uint8_three v h0 i j, Nat.mod_eq_of_lt hlt]

/-- The constant bright image: every channel of every pixel is 200. -/
def gray200 : Arr3 := ⟨3, 84, 84, fun _ _ _ => 200⟩

/-- Counterexample to C2 as stated: on a (3, 84, 84) image whose three
channel values are all 200, the integer channel mean is 200 but the
grayscale stage produces 29, because `np.mean(·, 0, 'uint8')` wraps the
channel sum 600 to 88 before dividing. -/
theorem C2_grayscale_counterexample :
    (grayscaleFn (some gray200, none)).map
        (fun o => o.1.map (fun g => g.data 0 0 0)) = some (some 29)
    ∧ (200 + 200 + 200) / 3 = 200
    ∧ (29 : Nat) ≠ 200 := by
  refine ⟨rfl, by decide, by decide⟩

/-- Closed instance of the amended C2 on the constant-200 image. -/
theorem C2_grayscale_uint8_mean_witness :
    ∃ g : Arr3,
      grayscaleFn (some gray200, none) = some (some g, none)
      ∧ g.d0 = 1 ∧ g.d1 = 84 ∧ g.d2 = 84
      ∧ g.data 0 0 0 = ((200 + 200 + 200) % 256) / 3 := by
  obtain ⟨g, hg, hd0, hd1, hd2, hpix, _⟩ :=
    C2_grayscale_uint8_mean gray200 none rfl rfl rfl
  exact ⟨g, hg, hd0, hd1, hd2, hpix 0 0⟩

theorem flattenLoop_no_cubes :
    ∀ (m : List (String × NpArray)) (fl : List (List Nat)) (vis : Option Arr3),
      cubesOf m = [] → m.all (fun e => !isScalar e.2) = true →
      flattenLoop m fl vis = some (vis, fl ++ vecsOf m) := by
  intro m
  induction m with
  | nil => intro fl vis _ _; simp [flattenLoop, vecsOf]
  | cons e rest ih =>
    intro fl vis hc hs
    obtain ⟨k, x⟩ := e
    rw [List.all_cons, Bool.and_eq_true] at hs
    cases x with
    | vec d =>
      simp only [flattenLoop]
      rw [ih (fl ++ [d]) vis (by simpa [cubesOf] using hc) hs.2]
      simp [vecsOf, List.filterMap_cons, List.append_assoc]
    | cube a =>
      exfalso
      simp [cubesOf] at hc
    | scalar v =>
      exfalso
      simp [isScalar] at hs

theorem flattenLoop_one_cube :
    ∀ (m : List (String × NpArray)) (fl : List (List Nat)) (a : Arr3),
      cubesOf m = [a] → a.d0 = 84 → a.d1 = 84 → a.d2 = 3 →
      m.all (fun e => !isScalar e.2) = true →
      flattenLoop m fl none = some (some a.transpose210, fl ++ vecsOf m) := by
  intro m
  induction m with
  | nil => intro fl a hc _ _ _ _; simp [cubesOf] at hc
  | cons e rest ih =>
    intro fl a hc h0 h1 h2 hs
    obtain ⟨k, x⟩ := e
    rw [List.all_cons, Bool.and_eq_true] at hs
    cases x with
    | vec d =>
      simp only [flattenLoop]
      rw [ih (fl ++ [d]) a (by simpa [cubesOf] using hc) h0 h1 h2
        (by simpa using hs.2)]
      simp [vecsOf, List.append_assoc]
    | cube b =>
      have hb : b = a ∧ cubesOf rest = [] := by
        have : b :: cubesOf rest = [a] := by simpa [cubesOf] using hc
        exact ⟨(List.cons_eq_cons.mp this).1, (List.cons_eq_cons.mp this).2⟩
      obtain ⟨rfl, hrest⟩ := hb
      simp only [flattenLoop]
      rw [if_pos ⟨h0, h1, h2⟩, if_pos ?_]
      · rw [flattenLoop_no_cubes rest fl (some b.transpose210) hrest
          (by simpa using hs.2)]
        simp [vecsOf]
      · exact ⟨by simp [Arr3.transpose210, h2], by simp [Arr3.transpose210, h1],
          by simp [Arr3.transpose210, h0]⟩
    | scalar v =>
      exfalso
      simp [isScalar] at hs

theorem flatten_obs_single_cube (k : String) (a : Arr3)
    (h0 : a.d0 = 84) (h1 : a.d1 = 84) (h2 : a.d2 = 3) :
    flatten_obs [(k, NpArray.cube a)] = some (some a.transpose210, none) := by
  unfold flatten_obs
  rw [flattenLoop_one_cube [(k, NpArray.cube a)] [] a (by simp [cubesOf]) h0 h1 h2
    (by simp [isScalar])]
  simp [vecsOf]

/-- Claim C5: with exactly one rank-3 array of shape (84, 84, 3) among rank-1
arrays, the flatten stage yields a (3, 84, 84) visual and the concatenation
of the rank-1 arrays in mapping order (lengths 5 and 3 give flat length 8);
with only rank-1 arrays the visual is absent; with only the rank-3 array
the flat component is `none`, not an empty array. -/
theorem C5_flatten_obs_cases :
    (∀ (m : List (String × NpArray)) (a : Arr3),
      cubesOf m = [a] → a.d0 = 84 → a.d1 = 84 → a.d2 = 3 →
      m.all (fun e => !isScalar e.2) = true →
      ∃ v : Arr3,
        flatten_obs m = some (some v,
          if (vecsOf m).isEmpty then none else some (vecsOf m).flatten)
        ∧ v.d0 = 3 ∧ v.d1 = 84 ∧ v.d2 = 84)
    ∧ (∀ (m : List (String × NpArray)) (a : Arr3),
        cubesOf m = [a] → a.d0 = 84 → a.d1 = 84 → a.d2 = 3 →
        m.all (fun e => !isScalar e.2) = true →
        (vecsOf m).map List.length = [5, 3] →
        ∃ (v : Arr3) (l : List Nat),
          flatten_obs m = some (some v, some l) ∧ l.length = 8)
    ∧ (∀ (m : List (String × NpArray)),
        cubesOf m = [] → m.all (fun e => !isScalar e.2) = true →
        ∃ flo : Option (List Nat),
          flatten_obs m = some (none, flo)
          ∧ (vecsOf m = [] → flo = none)
          ∧ (vecsOf m ≠ [] → flo = some (vecsOf m).flatten))
    ∧ (∀ (k : String) (a : Arr3),
        a.d0 = 84 → a.d1 = 84 → a.d2 = 3 →
        flatten_obs [(k, NpArray.cube a)] = some (some a.transpose210, none)) := by
  refine ⟨?_, ?_, ?_, fun k a h0 h1 h2 => flatten_obs_single_cube k a h0 h1 h2⟩
  · intro m a hc h0 h1 h2 hs
    refine ⟨a.transpose210, ?_, by simp [Arr3.transpose210, h2],
      by simp [Arr3.transpose210, h1], by simp [Arr3.transpose210, h0]⟩
    unfold flatten_obs
    rw [flattenLoop_one_cube m [] a hc h0 h1 h2 hs]
    simp
  · intro m a hc h0 h1 h2 hs hlen
    have hne : vecsOf m ≠ [] := by
      intro hnil
      rw [hnil] at hlen
      simp at hlen
    refine ⟨a.transpose210, (vecsOf m).flatten, ?_, ?_⟩
    · unfold flatten_obs
      rw [flattenLoop_one_cube m [] a hc h0 h1 h2 hs]
      simp [List.isEmpty_iff, hne]
    · rw [List.length_flatten, hlen]
      rfl
  · intro m hc hs
    refine ⟨if (vecsOf m).isEmpty then none else some (vecsOf m).flatten, ?_, ?_, ?_⟩
    · unfold flatten_obs
      rw [flattenLoop_no_cubes m [] none hc hs]
      simp
    · intro hnil
      simp [hnil]
    · intro hne
      simp [List.isEmpty_iff, hne]

/-- The rank-3 pixels array of the concrete flatten example. -/
def cubeC : Arr3 := ⟨84, 84, 3, fun _ _ _ => 0⟩

/-- The concrete mapping of the flatten example: one (84, 84, 3) pixels
array and two rank-1 arrays of lengths 5 and 3. -/
def mC : List (String × NpArray) :=
  [("pixels", NpArray.cube cubeC),
   ("position", NpArray.vec [1, 2, 3, 4, 5]),
   ("velocity", NpArray.vec [6, 7, 8])]

/-- Closed instance of C5 on the concrete example mapping. -/
theorem C5_flatten_obs_cases_witness :
    (∃ (v : Arr3) (l : List Nat),
      flatten_obs mC = some (some v, some l) ∧ l.length = 8)
    ∧ flatten_obs [("pixels", NpArray.cube cubeC)]
        = some (some cubeC.transpose210, none) := by
  refine ⟨C5_flatten_obs_cases.2.1 mC cubeC rfl rfl rfl rfl (by decide) (by decide), ?_⟩
  exact C5_flatten_obs_cases.2.2.2 "pixels" cubeC rfl rfl rfl

/-- The native observation of the pixel environment: a mapping with one
`pixels` entry of shape (84, 84, 3), as documented by
`DMControlDummyWrapper.observation_spec` (wrapper.py:202-203). -/
def nativeObs : List (String × NpArray) := [("pixels", NpArray.cube cubeC)]

/-- A concrete mid-episode time-step carrying the native observation. -/
def tsMid : TimeStep (List (String × NpArray)) :=
  ⟨StepType.MID, some 1, nativeObs⟩

/-- Counterexample to C1 as stated: the adapter's step returns the native
observation unchanged, whose single pixels array has shape (84, 84, 3),
while the declared observation spec promises shape (3, 84, 84). -/
theorem C1_adapter_counterexample :
    (dmcStepFn tsMid).observation = nativeObs
    ∧ (dmcResetFn tsMid).1 = nativeObs
    ∧ nativeObs.map (fun e =>
        match e.2 with
        | NpArray.cube a => some a.shape
        | _ => none) = [some [84, 84, 3]]
    ∧ dmcObservationSpec.map (fun e => e.2.shape) = [[3, 84, 84]]
    ∧ ([84, 84, 3] : List Nat) ≠ [3, 84, 84] := by
  refine ⟨rfl, rfl, rfl, rfl, by decide⟩

/-- Claim C1 (amended): the adapter declares a (3, 84, 84) uint8 pixel spec but
applies no transform at runtime — `step` and `reset` return the native
observation unchanged; the declared shape describes the observation only
after the downstream flatten stage transposes the native (84, 84, 3)
pixels array. -/
theorem C1_adapter_spec_is_post_flatten :
    (∀ (O : Type) (ts : TimeStep O),
      (dmcStepFn ts).observation = ts.observation
      ∧ (dmcResetFn ts).1 = ts.observation)
    ∧ dmcObservationSpec.map (fun e => e.2.shape) = [[3, 84, 84]]
    ∧ (∀ (k : String) (a : Arr3),
        a.d0 = 84 → a.d1 = 84 → a.d2 = 3 →
        ∃ v : Arr3,
          flatten_obs [(k, NpArray.cube a)] = some (some v, none)
          ∧ some v.shape = (dmcObservationSpec.map (fun e => e.2.shape)).head?) := by
  refine ⟨?_, rfl, ?_⟩
  · intro O ts
    cases h : ts.reward <;> simp [dmcStepFn, dmcResetFn, h]
  · intro k a h0 h1 h2
    refine ⟨a.transpose210, flatten_obs_single_cube k a h0 h1 h2, ?_⟩
    simp [Arr3.shape, Arr3.transpose210, h0, h1, h2, dmcObservationSpec]

/-- Closed instance of the amended C1 on the native pixels observation. -/
theorem C1_adapter_spec_is_post_flatten_witness :
    (dmcStepFn tsMid).observation = tsMid.observation
    ∧ (∃ v : Arr3,
        flatten_obs [("pixels", NpArray.cube cubeC)] = some (some v, none)
        ∧ some v.shape = (dmcObservationSpec.map (fun e => e.2.shape)).head?) := by
  exact ⟨(C1_adapter_spec_is_post_flatten.1 (List (String × NpArray)) tsMid).1,
    C1_adapter_spec_is_post_flatten.2.2 "pixels" cubeC rfl rfl rfl⟩

theorem fsFill_four {α : Type} (q : List α) (x : α) (hq : q.length ≤ 4) :
    fsFill 4 q x = List.replicate 4 x := by
  have hr4 : List.range 4 = [0, 1, 2, 3] := rfl
  cases q with
  | nil => simp [fsFill, hr4, dequeAppend, List.replicate]
  | cons a q1 =>
    cases q1 with
    | nil => simp [fsFill, hr4, dequeAppend, List.replicate]
    | cons b q2 =>
      cases q2 with
      | nil => simp [fsFill, hr4, dequeAppend, List.replicate]
      | cons c q3 =>
        cases q3 with
        | nil => simp [fsFill, hr4, dequeAppend, List.replicate]
        | cons d q4 =>
          cases q4 with
          | nil => simp [fsFill, hr4, dequeAppend, List.replicate]
          | cons e q5 =>
            simp [List.length_cons] at hq

/-- Claim C6: with capacity 4, a reset pre-fills the history with 4 copies of the
initial observation (stacked visual channel count 4 = 4 × 1), and the next
step evicts the oldest frame, appending the new one; the flat component of
the stacked observation is the most recent frame's flat data only. -/
theorem C6_frame_stack_n4 :
    ∀ (σ A : Type) (E : Env σ Obs A) (s : σ × List Obs) (a : A)
      (t t2 : σ) (f g : Nat → Nat → Nat → Nat) (fl0 fl1 : List Nat)
      (r : Int) (d : Bool),
      s.2.length ≤ 4 →
      E.reset s.1 = (t, (some ⟨1, 84, 84, f⟩, some fl0)) →
      E.step t a = (t2, (some ⟨1, 84, 84, g⟩, some fl1), r, d) →
      ∃ (v0 v1 : Arr3),
        fsReset 4 E s
          = some ((t, List.replicate 4 (some ⟨1, 84, 84, f⟩, some fl0)),
              (some v0, some fl0))
        ∧ v0.d0 = 4 ∧ v0.d0 = 4 * (1 : Nat) ∧ v0.d1 = 84 ∧ v0.d2 = 84
        ∧ fsStep 4 E (t, List.replicate 4 (some ⟨1, 84, 84, f⟩, some fl0)) a
            = some ((t2, [(some ⟨1, 84, 84, f⟩, some fl0),
                          (some ⟨1, 84, 84, f⟩, some fl0),
                          (some ⟨1, 84, 84, f⟩, some fl0),
                          (some ⟨1, 84, 84, g⟩, some fl1)]),
                ((some v1, some fl1), r, d))
        ∧ v1.d0 = 4 ∧ v1.d1 = 84 ∧ v1.d2 = 84 := by
  intro σ A E s a t t2 f g fl0 fl1 r d hq hr hs
  refine ⟨concat2 (concat2 (concat2 ⟨1, 84, 84, f⟩ ⟨1, 84, 84, f⟩) ⟨1, 84, 84, f⟩)
      ⟨1, 84, 84, f⟩,
    concat2 (concat2 (concat2 ⟨1, 84, 84, f⟩ ⟨1, 84, 84, f⟩) ⟨1, 84, 84, f⟩)
      ⟨1, 84, 84, g⟩, ?_, rfl, rfl, rfl, rfl, ?_, rfl, rfl, rfl⟩
  · simp only [fsReset]
    rw [hr]
    have hfill : fsFill 4 s.2 (t, (some ⟨1, 84, 84, f⟩, some fl0)).2
        = List.replicate 4 (some ⟨1, 84, 84, f⟩, some fl0) :=
      fsFill_four s.2 _ hq
    rw [hfill]
    rfl
  · simp only [fsStep]
    have hs2 : E.step (t, List.replicate 4
          ((some ⟨1, 84, 84, f⟩, some fl0) : Obs)).1 a
        = (t2, (some ⟨1, 84, 84, g⟩, some fl1), r, d) := hs
    rw [hs2]
    rfl

/-- A concrete never-terminating pixel environment for the frame-stack
wrapper: single-channel visuals and short flat vectors. -/
def fsEnvC : Env Unit Obs Unit :=
  { reset := fun _ => ((), (some ⟨1, 84, 84, fun _ _ _ => 7⟩, some [1, 2])),
    step := fun _ _ =>
      ((), (some ⟨1, 84, 84, fun _ _ _ => 9⟩, some [3]), 5, false) }

/-- Closed instance of C6 on the concrete environment. -/
theorem C6_frame_stack_n4_witness :
    ∃ (v0 v1 : Arr3),
      fsReset 4 fsEnvC ((), [])
        = some (((), List.replicate 4
              (some ⟨1, 84, 84, fun _ _ _ => 7⟩, some [1, 2])),
            (some v0, some [1, 2]))
      ∧ v0.d0 = 4 ∧ v0.d0 = 4 * (1 : Nat) ∧ v0.d1 = 84 ∧ v0.d2 = 84
      ∧ fsStep 4 fsEnvC ((), List.replicate 4
            (some ⟨1, 84, 84, fun _ _ _ => 7⟩, some [1, 2])) ()
          = some (((), [(some ⟨1, 84, 84, fun _ _ _ => 7⟩, some [1, 2]),
                        (some ⟨1, 84, 84, fun _ _ _ => 7⟩, some [1, 2]),
                        (some ⟨1, 84, 84, fun _ _ _ => 7⟩, some [1, 2]),
                        (some ⟨1, 84, 84, fun _ _ _ => 9⟩, some [3])]),
              ((some v1, some [3]), 5, false))
      ∧ v1.d0 = 4 ∧ v1.d1 = 84 ∧ v1.d2 = 84 := by
  exact C6_frame_stack_n4 Unit Unit fsEnvC ((), []) () () ()
    (fun _ _ _ => 7) (fun _ _ _ => 9) [1, 2] [3] 5 false (by decide) rfl rfl

theorem stacked_first_visual_assert (a0 : Arr3) (f0 : Option (List Nat))
    (rest : List Obs) (h : ¬(a0.d0 = 1 ∧ a0.d1 = 84 ∧ a0.d2 = 84)) :
    stackedObservation ((some a0, f0) :: rest) = none := by
  simp only [stackedObservation]
  rw [if_neg h]

/-- A (1, 84, 84) single-channel frame. -/
def arr184 : Arr3 := ⟨1, 84, 84, fun _ _ _ => 0⟩

/-- A (3, 84, 84) three-channel frame. -/
def arr384 : Arr3 := ⟨3, 84, 84, fun _ _ _ => 0⟩

/-- Counterexample to C10 as stated: a history whose SECOND stored frame
has shape (3, 84, 84) stacks without any assertion failure, because the
shape assert inspects only the first stored frame. -/
theorem C10_counterexample_second_frame :
    (stackedObservation [(some arr184, none), (some arr384, none)]).isSome = true
    ∧ arr384.shape ≠ [1, 84, 84] := by
  exact ⟨rfl, by decide⟩

/-- An environment whose visuals are (3, 84, 84), e.g. a pixel chain with
no grayscale stage in front of the frame-stack wrapper. -/
def fsEnv384 : Env Unit Obs Unit :=
  { reset := fun _ => ((), (some arr384, none)),
    step := fun _ _ => ((), (some arr384, none), 0, false) }

/-- Claim C10 (amended): the stacking asserts shape (1, 84, 84) of the FIRST
stored visual frame only; since reset pre-fills the history with copies of
one observation, an environment producing any other channel count — e.g.
(3, 84, 84) with no preceding grayscale stage — fails the assertion at the
first stacking, so single-channel visual input is a runtime precondition. -/
theorem C10_first_frame_assert :
    (∀ (a0 : Arr3) (f0 : Option (List Nat)) (rest : List Obs),
      ¬(a0.d0 = 1 ∧ a0.d1 = 84 ∧ a0.d2 = 84) →
      stackedObservation ((some a0, f0) :: rest) = none)
    ∧ (∀ (σ A : Type) (E : Env σ Obs A) (s : σ × List Obs) (t : σ)
        (a0 : Arr3) (f0 : Option (List Nat)),
        s.2.length ≤ 4 →
        E.reset s.1 = (t, (some a0, f0)) →
        a0.d0 = 3 →
        fsReset 4 E s = none) := by
  refine ⟨fun a0 f0 rest h => stacked_first_visual_assert a0 f0 rest h, ?_⟩
  intro σ A E s t a0 f0 hq hr h3
  simp only [fsReset]
  rw [hr]
  have hfill : fsFill 4 s.2 (t, ((some a0, f0) : Obs)).2
      = List.replicate 4 (some a0, f0) :=
    fsFill_four s.2 _ hq
  rw [hfill]
  have hrep : (List.replicate 4 ((some a0, f0) : Obs))
      = (some a0, f0) :: List.replicate 3 (some a0, f0) := rfl
  rw [hrep, stacked_first_visual_assert a0 f0 _ (by
    intro hc
    omega)]

/-- Closed instance of the amended C10: a (3, 84, 84) first frame fails
the stacking assert, and so does a whole reset of the frame-stack wrapper
over a (3, 84, 84) environment. -/
theorem C10_first_frame_assert_witness :
    stackedObservation [(some arr384, none)] = none
    ∧ fsReset 4 fsEnv384 ((), []) = none := by
  exact ⟨C10_first_frame_assert.1 arr384 none [] (by decide),
    C10_first_frame_assert.2 Unit Unit fsEnv384 ((), []) () arr384 none
      (by decide) rfl rfl⟩
